import Mathlib

/-!
# Verification of `fix_pal.py`

Shallow embedding of the PAL-speedup correction script `src/fix_pal.py`
and proofs about its timecode corrector (`adjust_timestamp`), text
rewriter (`edit_timecodes`), track classifier (`get_sync_flags`),
chapter handling (`fix_chapters` and the remux command built in `main`),
and audio resampling (`get_audio_sample_rate`, `fix_audio`).

Python's `adjust_timestamp` computes with `float` values: `secs` is a
`float`, and `Fraction * float` returns a `float` in Python, so the whole
total-seconds computation happens in IEEE-754 double precision.  We model
doubles exactly as rational numbers: every finite double is a rational,
decimal-literal parsing and each arithmetic operation are correctly
rounded (round to nearest, ties to even), and `%`/`//` on the values
arising here are exact (their true results are representable, see the
comments at `pyFloorDiv`/`pyMod`).  To keep everything kernel-computable
(`Rat`'s arithmetic does not reduce in the kernel), we use an
unnormalized fraction type `Frac` with plain integer arithmetic.
-/

/-- Unnormalized rational number: numerator over a (by construction
positive) denominator.  No gcd normalization, so all operations are plain
integer arithmetic and reduce in the kernel.  Value equality and order
are the cross-multiplied predicates `Frac.veq` / `Frac.vlt`, not
structural equality. -/
structure Frac where
  num : Int
  den : Int
deriving DecidableEq, Repr

namespace Frac

def ofInt (n : Int) : Frac := ⟨n, 1⟩

def ofNat (n : Nat) : Frac := ⟨(n : Int), 1⟩

def add (a b : Frac) : Frac := ⟨a.num * b.den + b.num * a.den, a.den * b.den⟩

def mul (a b : Frac) : Frac := ⟨a.num * b.num, a.den * b.den⟩

def sub (a b : Frac) : Frac := ⟨a.num * b.den - b.num * a.den, a.den * b.den⟩

def neg (a : Frac) : Frac := ⟨-a.num, a.den⟩

instance : Add Frac := ⟨Frac.add⟩

instance : Mul Frac := ⟨Frac.mul⟩

instance : Sub Frac := ⟨Frac.sub⟩

instance : Neg Frac := ⟨Frac.neg⟩

/-- Value equality (denominators are positive by construction). -/
def veq (a b : Frac) : Prop := a.num * b.den = b.num * a.den

/-- Value strict order (denominators are positive by construction). -/
def vlt (a b : Frac) : Prop := a.num * b.den < b.num * a.den

instance (a b : Frac) : Decidable (veq a b) := by unfold veq; infer_instance

instance (a b : Frac) : Decidable (vlt a b) := by unfold vlt; infer_instance

/-- Floor of the represented value (`Int.fdiv` is floor division and the
denominator is positive). -/
def floor (a : Frac) : Int := Int.fdiv a.num a.den

/-- Round the represented value to the nearest integer, ties to even
(the rounding used both by IEEE-754 binary arithmetic and by CPython's
correctly rounded `float` formatting). -/
def rhe (a : Frac) : Int :=
  let n := a.floor
  let r2 := 2 * (a.num - n * a.den)
  if r2 < a.den then n
  else if a.den < r2 then n + 1
  else if n % 2 = 0 then n else n + 1

/-- Multiply by `2^k` for `k : Int`. -/
def mulPow2 (a : Frac) (k : Int) : Frac :=
  if 0 ≤ k then ⟨a.num * (2 ^ k.toNat : Nat), a.den⟩
  else ⟨a.num, a.den * (2 ^ (-k).toNat : Nat)⟩

/-- `2^k` as a `Frac`, for `k : Int`. -/
def pow2 (k : Int) : Frac :=
  if 0 ≤ k then ⟨((2 ^ k.toNat : Nat) : Int), 1⟩ else ⟨1, ((2 ^ (-k).toNat : Nat) : Int)⟩

end Frac

/-- Fuel-driven base-2 logarithm on `Nat` (kernel-reducible, unlike the
well-founded `Nat.log2`); with fuel ≥ bit length it computes ⌊log₂ n⌋. -/
def natLog2F : Nat → Nat → Nat
  | 0, _ => 0
  | fuel + 1, n => if 2 ≤ n then natLog2F fuel (n / 2) + 1 else 0

/-- ⌊log₂ n⌋ for positive `n`. -/
def natLog2 (n : Nat) : Nat := natLog2F n n

/-- ⌊log₂ x⌋ for a positive `Frac` value. -/
def fracLog2 (a : Frac) : Int :=
  let z : Int := (natLog2 a.num.toNat : Int) - (natLog2 a.den.toNat : Int)
  if Frac.vlt a (Frac.pow2 z) then z - 1 else z

/-- Round a positive rational to the nearest IEEE-754 binary64 value
(round to nearest, ties to even; subnormals included, overflow not
modeled — never reached here). -/
def flPos (a : Frac) : Frac :=
  let e := fracLog2 a
  let s := max (e - 52) (-1074)
  let m := Frac.rhe (a.mulPow2 (-s))
  (Frac.ofInt m).mulPow2 s

/-- Round a rational to the nearest IEEE-754 binary64 value.  This models
every correctly rounded double operation of CPython: decimal-literal
parsing via `float(...)`, `float(Fraction)` conversion, and each `+`/`*`
result (apply `fl` to the exact result of the operation). -/
def fl (a : Frac) : Frac :=
  if a.num = 0 then ⟨0, 1⟩
  else if a.num < 0 then (flPos ⟨-a.num, a.den⟩).neg
  else flPos a

/-- Python `//` on the nonnegative doubles arising here (dividend `< 2^53`,
small positive integer divisor): the mathematical floor quotient, which is
exactly what CPython's `float_floordiv` returns on these inputs (the
intermediate `fmod` is exact and the quotient is a representable integer). -/
def pyFloorDiv (a : Frac) (m : Nat) : Int := Int.fdiv a.num (a.den * m)

/-- Python `%` on the nonnegative doubles arising here (small positive
integer modulus): the exact remainder, which is what CPython computes
(`fmod` of doubles is exact, and the result here is representable). -/
def pyMod (a : Frac) (m : Nat) : Frac := a - (Frac.ofInt (pyFloorDiv a m)) * (Frac.ofNat m)

/-- Value of a digit list read in base 10. -/
def digitsVal (l : List Char) : Nat := l.foldl (fun acc c => 10 * acc + (c.toNat - 48)) 0

def allDigits (l : List Char) : Bool := l.all Char.isDigit

/-- Python `int(...)` applied to the two-character slices of
`adjust_timestamp` (digit strings in every reachable call). -/
def parseNat2 (l : List Char) : Option Nat :=
  if l.length = 2 && allDigits l then some (digitsVal l) else none

/-- Exact rational value of a plain decimal literal `digits[.digits]`,
the shape of every seconds substring a timecode match produces (other
`float(...)` syntaxes are never exercised by the claims; a non-literal
yields `none`, modeling `ValueError`). -/
def parseDecimal (l : List Char) : Option Frac :=
  let ip := l.takeWhile Char.isDigit
  let rest := l.drop ip.length
  match rest with
  | [] => if ip.isEmpty then none else some (Frac.ofNat (digitsVal ip))
  | c :: fr =>
    if c = '.' && allDigits fr && !(ip.isEmpty && fr.isEmpty) then
      some ⟨((digitsVal ip * 10 ^ fr.length + digitsVal fr : Nat) : Int), ((10 ^ fr.length : Nat) : Int)⟩
    else none

def padZeros (w : Nat) (s : String) : String :=
  String.mk (List.replicate (w - s.length) '0') ++ s

/-- Python `"{:02.0f}".format(x)` for the nonnegative integer-valued
doubles formatted here: round (ties to even), then zero-fill to minimum
width 2. -/
def fmt02_0f (x : Frac) : String := padZeros 2 (toString (Frac.rhe x).toNat)

/-- Python `"{:02.9f}".format(x)` for the nonnegative doubles formatted
here: correctly rounded to 9 fractional digits (ties to even).  The
minimum field width 2 never adds padding, because the result already has
at least 11 characters. -/
def fmt02_9f (x : Frac) : String :=
  let n := (Frac.rhe (x * Frac.ofNat (10 ^ 9))).toNat
  toString (n / 10 ^ 9) ++ "." ++ padZeros 9 (toString (n % 10 ^ 9))

/-- `CORRECTION_FACTOR = "25/24"` parsed by `Fraction`, as an exact
rational. -/
def CORRECTION_FACTOR : Frac := ⟨25, 24⟩

/-- `adjust_timestamp` from `fix_pal.py`, generalized by the correction
factor (the script fixes `factor = CORRECTION_FACTOR`).  Python
evaluates `Fraction(CORRECTION_FACTOR) * old_total_secs` with
`old_total_secs : float`, which returns `float(Fraction(...)) *
old_total_secs` — a double-precision product — so every step after
parsing is double arithmetic, modeled by `fl`. -/
def adjust_timestamp_f (factor : Frac) (ts : String) : Option String :=
  let cs := ts.data
  match parseNat2 (cs.take 2), parseNat2 ((cs.drop 3).take 2), parseDecimal (cs.drop 6) with
  | some hrs, some mins, some s =>
    let secs := fl s
    let old_total := fl (fl (Frac.ofNat (3600 * hrs + 60 * mins)) + secs)
    let new_total := fl (fl factor * old_total)
    some (fmt02_0f (Frac.ofInt (pyFloorDiv new_total 3600)) ++ ":" ++
          fmt02_0f (Frac.ofInt (pyFloorDiv (pyMod new_total 3600) 60)) ++ ":" ++
          fmt02_9f (pyMod new_total 60))
  | _, _, _ => none

/-- `adjust_timestamp` with the script's constant `CORRECTION_FACTOR`. -/
def adjust_timestamp (ts : String) : Option String :=
  adjust_timestamp_f CORRECTION_FACTOR ts

/-- Modelled from the spec: the Timecode Corrector as the spec words it —
convert to total elapsed seconds as `3600*H + 60*M + S` using exact
rational arithmetic, multiply by the correction factor, decompose back
into hours / minutes / seconds, each zero-padded to two digits with 9
fractional digits for seconds.  Used only to compare the exact-rational
semantics the spec claims against what the code computes. -/
def adjust_timestamp_exact (ts : String) : Option String :=
  let cs := ts.data
  match parseNat2 (cs.take 2), parseNat2 ((cs.drop 3).take 2), parseDecimal (cs.drop 6) with
  | some hrs, some mins, some s =>
    let total := Frac.ofNat (3600 * hrs + 60 * mins) + s
    let nt := CORRECTION_FACTOR * total
    let n := (Frac.rhe ((pyMod nt 60) * Frac.ofNat (10 ^ 9))).toNat
    some (padZeros 2 (toString (pyFloorDiv nt 3600).toNat) ++ ":" ++
          padZeros 2 (toString (pyFloorDiv (pyMod nt 3600) 60).toNat) ++ ":" ++
          padZeros 2 (toString (n / 10 ^ 9)) ++ "." ++ padZeros 9 (toString (n % 10 ^ 9)))
  | _, _, _ => none

/-- Split a character list at colons. -/
def splitColon : List Char → List (List Char)
  | [] => [[]]
  | c :: rest =>
    let r := splitColon rest
    if c = ':' then [] :: r
    else
      match r with
      | [] => [[c]]
      | h :: t => (c :: h) :: t

/-- The three `H`/`M`/`S` fields of a timecode string, as exact rationals. -/
def tcFields (ts : String) : Option (Frac × Frac × Frac) :=
  match splitColon ts.data with
  | [h, m, s] =>
    match parseDecimal h, parseDecimal m, parseDecimal s with
    | some a, some b, some c => some (a, b, c)
    | _, _, _ => none
  | _ => none

/-- Total-seconds value `3600*H + 60*M + S` of a timecode string. -/
def tcValue (ts : String) : Option Frac :=
  (tcFields ts).map (fun f => Frac.ofNat 3600 * f.1 + Frac.ofNat 60 * f.2.1 + f.2.2)

/-- Whether a string has exactly the textual shape `DD:DD:DD.D+`
(two-digit hours, minutes and integer seconds, a dot, then one or more
fractional digits). -/
def isTimecodeShape (ts : String) : Bool :=
  match ts.data with
  | a :: b :: ':' :: c :: d :: ':' :: e :: f :: '.' :: rest =>
    [a, b, c, d, e, f].all Char.isDigit && !rest.isEmpty && allDigits rest
  | _ => false

/-- Python text-mode reading applies universal-newline translation:
a CR-LF pair and a lone CR both become LF.  (Writing back in text mode
on a POSIX platform leaves LF unchanged.)  The Boolean argument records
a pending carriage return. -/
def normNL : Bool → List Char → List Char
  | pend, [] => if pend then ['\n'] else []
  | pend, c :: rest =>
    if c = '\r' then
      if pend then '\n' :: normNL true rest else normNL true rest
    else if pend then
      if c = '\n' then '\n' :: normNL false rest
      else '\n' :: c :: normNL false rest
    else c :: normNL false rest

/-- Length of the match of the pattern `\d\d:\d\d:\d\d` + any character +
one-or-more digits (the script's timecode regex, whose dot is unescaped
and therefore matches any character except a newline) at the head of `l`.
The trailing greedy digit run has nothing after it, so matching is
deterministic. -/
def matchLen (l : List Char) : Option Nat :=
  match l with
  | a :: b :: ':' :: c :: d :: ':' :: e :: f :: x :: rest =>
    if a.isDigit && b.isDigit && c.isDigit && d.isDigit && e.isDigit && f.isDigit
        && !(x == '\n') then
      let k := (rest.takeWhile Char.isDigit).length
      if k = 0 then none else some (9 + k)
    else none
  | _ => none

/-- Whether the script's timecode regex matches anywhere in `l`. -/
def hasMatchB : List Char → Bool
  | [] => false
  | c :: rest => (matchLen (c :: rest)).isSome || hasMatchB rest

/-- `re.sub(pattern, adjust_timestamp, ...)` over the text: leftmost,
non-overlapping matches, each replaced by `adjust_timestamp`.  No match
can span a newline (every pattern element excludes LF), so the global
substitution coincides with the script's per-line iteration.  `none`
models the uncaught `ValueError` raised when a matched substring has a
non-numeric character where the dot is.  Fuel-driven so that it reduces
in the kernel; any fuel ≥ length of the list computes the substitution. -/
def reSubAux : Nat → List Char → Option (List Char)
  | 0, _ => some []
  | _ + 1, [] => some []
  | fuel + 1, c :: rest =>
    match matchLen (c :: rest) with
    | some k =>
      match adjust_timestamp (String.mk ((c :: rest).take k)), reSubAux fuel ((c :: rest).drop k) with
      | some rep, some tail => some (rep.data ++ tail)
      | _, _ => none
    | none =>
      match reSubAux fuel rest with
      | some tail => some (c :: tail)
      | none => none

/-- `edit_timecodes` from `fix_pal.py`, as the transformation it applies
to the file contents: read in text mode (universal newlines), substitute
every timecode-pattern match via `adjust_timestamp`, write the result. -/
def edit_timecodes (content : String) : Option String :=
  let t := normNL false content.data
  (reSubAux t.length t).map String.mk

/-- Result of `subprocess.run(cmd, text=True, capture_output=True)`:
exit status and captured stdout, the latter already split into lines
(both report parsers immediately split it). -/
structure ToolResult where
  exitcode : Int
  stdoutLines : List String
deriving Repr, DecidableEq

def lowerChar (c : Char) : Char :=
  if 65 ≤ c.toNat && c.toNat ≤ 90 then Char.ofNat (c.toNat + 32) else c

def startsWithL : List Char → List Char → Bool
  | [], _ => true
  | _ :: _, [] => false
  | a :: as, b :: bs => a == b && startsWithL as bs

def containsL (needle : List Char) : List Char → Bool
  | [] => needle.isEmpty
  | c :: rest => startsWithL needle (c :: rest) || containsL needle rest

/-- Python `needle.casefold() in hay.casefold()` for the ASCII data
involved (casefold is lowercasing there). -/
def containsCI (hay needle : String) : Bool :=
  containsL (needle.data.map lowerChar) (hay.data.map lowerChar)

/-- Backtracking choice for the greedy digit run of `\d+(?=:)` at the
head of `l`: the largest `k` at most the maximal run length such that
the character after the first `k` is a colon. -/
def tryColonK : Nat → List Char → Option Nat
  | 0, _ => none
  | k + 1, l => if (l.drop (k + 1)).head? = some ':' then some (k + 1) else tryColonK k l

def matchIdAt (l : List Char) : Option (List Char) :=
  (tryColonK (l.takeWhile Char.isDigit).length l).map (fun k => l.take k)

/-- `re.search` of the script's track-ID pattern (an empty group, one or
more digits, a colon lookahead): leftmost position admitting a digit run
immediately followed by a colon; `group(0)` is that digit run. -/
def reSearchId : List Char → Option (List Char)
  | [] => none
  | c :: rest =>
    match matchIdAt (c :: rest) with
    | some m => some m
    | none => reSearchId rest

/-- The per-line loop of `get_sync_flags`.  `none` models the uncaught
`AttributeError` raised when `re.search` returns `None` on a qualifying
line. -/
def syncFlagsLines : List String → Option (List String)
  | [] => some []
  | line :: rest =>
    if containsCI line "Track ID" then
      if containsCI line "audio" then syncFlagsLines rest
      else
        match reSearchId line.data with
        | none => none
        | some tid =>
          match syncFlagsLines rest with
          | some t => some ("--sync" :: (String.mk tid ++ ":0,25/24") :: t)
          | none => none
    else syncFlagsLines rest

/-- `get_sync_flags` from `fix_pal.py`.  The script never inspects the
inspector's exit status (`subprocess.run` without `check=True`), only
its captured stdout. -/
def get_sync_flags (r : ToolResult) : Option (List String) :=
  syncFlagsLines r.stdoutLines

/-- The two shapes `fix_chapters` can return: the empty string (no
chapters) or the two-element argument list. -/
inductive ChapterArgs where
  | strArgs (s : String)
  | listArgs (l : List String)
deriving Repr, DecidableEq

/-- `fix_chapters`: the first component records the chapter processing
performed (extractor invocation and timecode rewrite), the second the
returned value. -/
def fix_chapters (stdout : String) (tmpdir : String) : List String × ChapterArgs :=
  if !(containsCI stdout "Chapters") then ([], ChapterArgs.strArgs "")
  else (["mkvextract", "edit_timecodes"],
        ChapterArgs.listArgs ["--chapters", tmpdir ++ "/hello-new-chap.xml"])

/-- Python `list.extend`: extending with a string appends its characters
as one-character strings; extending with a list appends its elements. -/
def extendArgs (cmd : List String) : ChapterArgs → List String
  | ChapterArgs.strArgs s => cmd ++ s.data.map (fun c => String.mk [c])
  | ChapterArgs.listArgs l => cmd ++ l

/-- The remux command built in `main` from the sync flags and the value
returned by `fix_chapters`. -/
def mkvmergeCmd (tmpfile : String) (sync : List String) (ch : ChapterArgs)
    (infile : String) : List String :=
  extendArgs (["mkvmerge", "--output", tmpfile] ++ sync ++ ["--no-chapters"]) ch ++ [infile]

/-- Match of the sample-rate pattern (one-or-more digits, an optional
dot, zero-or-more digits) starting at `l` (head known to be a digit):
greedy digit run, then an optional dot with a second greedy run. -/
def matchNumAt (l : List Char) : List Char :=
  let d1 := l.takeWhile Char.isDigit
  match l.drop d1.length with
  | '.' :: r2 => d1 ++ '.' :: r2.takeWhile Char.isDigit
  | _ => d1

/-- `re.search` of the sample-rate pattern: the match starts at the
leftmost digit. -/
def reSearchNum : List Char → Option (List Char)
  | [] => none
  | c :: rest => if c.isDigit then some (matchNumAt (c :: rest)) else reSearchNum rest

/-- The per-line loop of `get_audio_sample_rate`: `none` models the
uncaught `AttributeError` on a frequency line with no digits,
`some none` the fall-through `return None`, `some (some s)` a found
rate. -/
def sampleRateLines : List String → Option (Option String)
  | [] => some none
  | line :: rest =>
    if containsCI line "Sampling frequency" then
      match reSearchNum line.data with
      | some m => some (some (String.mk m))
      | none => none
    else sampleRateLines rest

/-- `get_audio_sample_rate` from `fix_pal.py` (exit status again
ignored). -/
def get_audio_sample_rate (r : ToolResult) : Option (Option String) :=
  sampleRateLines r.stdoutLines

/-- Python `str(...)` of the value interpolated into the `asetrate`
f-string: `str(None)` is `"None"`. -/
def pyStrOpt : Option String → String
  | none => "None"
  | some s => s

/-- `str(Fraction(n, d))` for the positive non-integer fractions here. -/
def fracStr (a : Frac) : String := toString a.num ++ "/" ++ toString a.den

/-- `audio_factor = 1 / Fraction(CORRECTION_FACTOR)`; `25/24` is in
lowest terms, so the `Fraction` is exactly `24/25`. -/
def audio_factor : Frac := ⟨CORRECTION_FACTOR.den, CORRECTION_FACTOR.num⟩

/-- The transcoder command `fix_audio` assembles. -/
def fix_audio_cmd (sample_rate : Option String) (infile outfile : String) : List String :=
  ["ffmpeg", "-y", "-i", infile, "-map", "0", "-filter:a",
   "asetrate=" ++ pyStrOpt sample_rate ++ "*" ++ fracStr audio_factor,
   "-c:v", "copy", "-c:s", "copy", "-max_interleave_delta", "0", outfile]

/-- `fix_audio` from `fix_pal.py`: determine the sample rate from the
inspector report on the intermediate file, then invoke the transcoder;
`none` propagates the sample-rate parser crash. -/
def fix_audio (r : ToolResult) (infile outfile : String) : Option (List String) :=
  (get_audio_sample_rate r).map (fun sr => fix_audio_cmd sr infile outfile)

namespace Frac

/-- Absolute value. -/
def abs (a : Frac) : Frac := ⟨if a.num < 0 then -a.num else a.num, a.den⟩

/-- Value non-strict order (denominators positive by construction). -/
def vle (a b : Frac) : Prop := a.num * b.den ≤ b.num * a.den

instance (a b : Frac) : Decidable (vle a b) := by unfold vle; infer_instance

end Frac

/-- Whether the total-seconds value encoded in the output of
`adjust_timestamp i` differs from the exact rational correction
`(3600*H + 60*M + S) * 25/24` of the input by MORE than half a unit of
the 9-fractional-digit output format (i.e. beyond the precision the
output format can express). -/
def outputDeviatesFromExact (i : String) : Bool :=
  match adjust_timestamp i, tcValue i with
  | some o, some vin =>
    match tcValue o with
    | some vout =>
      decide (Frac.vlt ⟨1, 2000000000⟩ (Frac.abs (vout - CORRECTION_FACTOR * vin)))
    | none => false
  | _, _ => false

/-- Whether a timecode string parses with minutes < 60 and seconds < 60. -/
def fieldsBelow60 (ts : String) : Bool :=
  match tcFields ts with
  | some f => decide (Frac.vlt f.2.1 (Frac.ofNat 60)) && decide (Frac.vlt f.2.2 (Frac.ofNat 60))
  | none => false

/-- Whether a timecode string's seconds field is ≥ 60. -/
def secondsFieldAtLeast60 (ts : String) : Bool :=
  match tcFields ts with
  | some f => decide (Frac.vle (Frac.ofNat 60) f.2.2)
  | none => false

/-- Python `1 / Fraction(...)` (inputs here are already reduced). -/
def pyInvFrac (a : Frac) : Frac := ⟨a.den, a.num⟩

/-- Total-seconds value after correcting with factor `f` and then with
`1 / f` (the round trip of the claim). -/
def roundTripValue (f : Frac) (i : String) : Option Frac :=
  ((adjust_timestamp_f f i).bind (adjust_timestamp_f (pyInvFrac f))).bind tcValue

/-- Whether the round trip with factor `f` returns a timecode whose
total-seconds value is exactly the natural number `n`. -/
def roundTripGivesNat (f : Frac) (i : String) (n : Nat) : Bool :=
  match roundTripValue f i with
  | some v => decide (Frac.veq v (Frac.ofNat n))
  | none => false

/-- Whether the round trip with factor `f` returns a timecode whose
total-seconds value differs from the input's by more than half a unit of
the 9-digit output format. -/
def roundTripDeviates (f : Frac) (i : String) : Bool :=
  match roundTripValue f i, tcValue i with
  | some v, some w => decide (Frac.vlt ⟨1, 2000000000⟩ (Frac.abs (v - w)))
  | _, _ => false

/-- One line of an inspector report, as the claim describes it: either a
line that does not identify a track, or a track line carrying a numeric
ID and a type descriptor. -/
inductive ReportLine where
  | other (l : String)
  | track (id ty : String)
deriving Repr, DecidableEq

/-- The textual shape of an mkvmerge track-identification line. -/
def trackLine (id ty : String) : String := "Track ID " ++ id ++ ": " ++ ty

def renderLine : ReportLine → String
  | ReportLine.other l => l
  | ReportLine.track id ty => trackLine id ty

/-- The sync directives the claim predicts: in report order, one
`"--sync", "<id>:0,25/24"` pair per track line not containing "audio"
case-insensitively, nothing for audio tracks or other lines. -/
def specDirectives : List ReportLine → List String
  | [] => []
  | ReportLine.other _ :: rest => specDirectives rest
  | ReportLine.track id ty :: rest =>
    if containsCI (trackLine id ty) "audio" then specDirectives rest
    else "--sync" :: (id ++ ":0,25/24") :: specDirectives rest

/-- Sanity condition on a report line: a non-track line does not contain
the track marker, and a track line has a nonempty numeric ID. -/
def wellFormedLine : ReportLine → Bool
  | ReportLine.other l => !(containsCI l "Track ID")
  | ReportLine.track id _ => !(id.data.isEmpty) && allDigits id.data

set_option maxRecDepth 8000

theorem normNL_id_of_no_cr (l : List Char) (h : ∀ c ∈ l, c ≠ '\r') : normNL false l = l := by
  induction l with
  | nil => rfl
  | cons c rest ih =>
    have hc : ¬(c = '\r') := h c (List.mem_cons_self c rest)
    simp only [normNL, if_neg hc, Bool.false_eq_true, if_false]
    exact congrArg (c :: ·) (ih fun x hx => h x (List.mem_cons_of_mem c hx))

theorem reSubAux_id_of_no_match :
    ∀ (fuel : Nat) (l : List Char), l.length ≤ fuel → hasMatchB l = false →
      reSubAux fuel l = some l := by
  intro fuel
  induction fuel with
  | zero =>
    intro l hl _
    have : l = [] := List.eq_nil_of_length_eq_zero (Nat.le_zero.mp hl)
    subst this
    rfl
  | succ n ih =>
    intro l hl hm
    cases l with
    | nil => rfl
    | cons c rest =>
      cases hml : matchLen (c :: rest) with
      | some k =>
        exfalso
        have := hm
        simp [hasMatchB, hml] at this
      | none =>
        have hrest : rest.length ≤ n := by
          simp only [List.length_cons] at hl
          omega
        have hmrest : hasMatchB rest = false := by
          have := hm
          simpa [hasMatchB, hml] using this
        simp [reSubAux, hml, ih rest hrest hmrest]

theorem takeWhile_digits_colon (l r : List Char) (h : allDigits l = true) :
    (l ++ ':' :: r).takeWhile Char.isDigit = l := by
  induction l with
  | nil =>
    simp [List.takeWhile_cons, show Char.isDigit ':' = false from by decide]
  | cons c cs ih =>
    have hall : c.isDigit = true ∧ allDigits cs = true := by
      simpa [allDigits, List.all_cons, Bool.and_eq_true] using h
    simp [List.takeWhile_cons, hall.1, ih hall.2]

theorem matchIdAt_digits (l r : List Char) (hl : l ≠ []) (h : allDigits l = true) :
    matchIdAt (l ++ ':' :: r) = some l := by
  unfold matchIdAt
  rw [takeWhile_digits_colon l r h]
  cases l with
  | nil => exact absurd rfl hl
  | cons c cs =>
    have hd : ((c :: cs) ++ ':' :: r).drop (c :: cs).length = ':' :: r := List.drop_left _ _
    have ht : ((c :: cs) ++ ':' :: r).take (c :: cs).length = c :: cs := List.take_left _ _
    show (tryColonK (cs.length + 1) ((c :: cs) ++ ':' :: r)).map _ = some (c :: cs)
    rw [tryColonK]
    simp only [show cs.length + 1 = (c :: cs).length from rfl, hd, ht]
    simp

theorem reSearchId_cons_nondigit (c : Char) (rest : List Char) (h : c.isDigit = false) :
    reSearchId (c :: rest) = reSearchId rest := by
  simp [reSearchId, matchIdAt, List.takeWhile_cons, h, tryColonK]

theorem reSearchId_trackLine (id ty : String) (hne : id.data ≠ [])
    (hdig : allDigits id.data = true) :
    reSearchId (trackLine id ty).data = some id.data := by
  have hd : (trackLine id ty).data
      = 'T' :: 'r' :: 'a' :: 'c' :: 'k' :: ' ' :: 'I' :: 'D' :: ' ' ::
        (id.data ++ ':' :: ' ' :: ty.data) := by
    simp [trackLine, String.data_append, List.append_assoc]
  rw [hd]
  rw [reSearchId_cons_nondigit _ _ (by decide), reSearchId_cons_nondigit _ _ (by decide),
      reSearchId_cons_nondigit _ _ (by decide), reSearchId_cons_nondigit _ _ (by decide),
      reSearchId_cons_nondigit _ _ (by decide), reSearchId_cons_nondigit _ _ (by decide),
      reSearchId_cons_nondigit _ _ (by decide), reSearchId_cons_nondigit _ _ (by decide),
      reSearchId_cons_nondigit _ _ (by decide)]
  obtain ⟨c, cs, hcc⟩ : ∃ c cs, id.data = c :: cs := by
    cases h : id.data with
    | nil => exact absurd h hne
    | cons c cs => exact ⟨c, cs, rfl⟩
  have hm : matchIdAt ((c :: cs) ++ ':' :: ' ' :: ty.data) = some (c :: cs) := by
    rw [← hcc]
    exact matchIdAt_digits _ _ hne hdig
  rw [hcc]
  have hstep : reSearchId ((c :: cs) ++ ':' :: ' ' :: ty.data)
      = match matchIdAt ((c :: cs) ++ ':' :: ' ' :: ty.data) with
        | some m => some m
        | none => reSearchId (cs ++ ':' :: ' ' :: ty.data) := rfl
  rw [hstep, hm]

theorem sampleRateLines_none (lines : List String)
    (h : lines.all (fun l => !(containsCI l "Sampling frequency")) = true) :
    sampleRateLines lines = some none := by
  induction lines with
  | nil => rfl
  | cons l rest ih =>
    have hall : (!(containsCI l "Sampling frequency")) = true ∧
        rest.all (fun l => !(containsCI l "Sampling frequency")) = true := by
      simpa [List.all_cons, Bool.and_eq_true] using h
    have hl : containsCI l "Sampling frequency" = false := by
      simpa using hall.1
    simp [sampleRateLines, hl, ih hall.2]

theorem stringMk_data (s : String) : String.mk s.data = s := rfl

/-- C1: counterexample evaluation — `adjust_timestamp` computes in
IEEE-754 double precision (Python's `Fraction * float` product is a
`float`), not with exact rational arithmetic.  On the valid timecode
`99:59:17.01256965261` the code emits `104:09:15.221426722`, while the
exact rational correction `(3600*99 + 60*59 + 17.01256965261) * 25/24 =
374955.22142672146875` rounds to `...221426721` at 9 digits; the emitted
total-seconds value deviates from the exact product by more than half a
unit of the 9-fractional-digit output format. -/
theorem adjust_timestamp_double_rounding_deviates :
    adjust_timestamp "99:59:17.01256965261" = some "104:09:15.221426722" ∧
    adjust_timestamp_exact "99:59:17.01256965261" = some "104:09:15.221426721" ∧
    outputDeviatesFromExact "99:59:17.01256965261" = true := by
  exact ⟨by decide, by decide, by decide⟩

/-- C2: counterexample evaluation — the output does not keep the
`DD:DD:DD.D+` shape: `"{:02.9f}"` sets a minimum TOTAL width of 2 for the
whole seconds field, so a corrected seconds value below 10 is printed
with a one-digit integer part: `00:00:05.000000000` becomes
`00:00:5.208333333`. -/
theorem adjust_timestamp_seconds_width_bug :
    isTimecodeShape "00:00:05.000000000" = true ∧
    adjust_timestamp "00:00:05.000000000" = some "00:00:5.208333333" ∧
    isTimecodeShape "00:00:5.208333333" = false := by
  exact ⟨by decide, by decide, by decide⟩

/-- C3: counterexample evaluation — formatting rounds the seconds field
up to `60.000000000` without carrying into minutes: the valid timecode
`00:00:57.5999999996` (minutes and seconds both below 60) corrects to
59.99999999958333... seconds, whose 9-digit rounding is 60, so the code
emits `00:00:60.000000000`: a seconds field ≥ 60. -/
theorem adjust_timestamp_seconds_field_60 :
    isTimecodeShape "00:00:57.5999999996" = true ∧
    fieldsBelow60 "00:00:57.5999999996" = true ∧
    adjust_timestamp "00:00:57.5999999996" = some "00:00:60.000000000" ∧
    secondsFieldAtLeast60 "00:00:60.000000000" = true := by
  exact ⟨by decide, by decide, by decide, by decide⟩

/-- C4 counterexample: with factor 1/1000000000 the timecode
`00:00:00.400000000` corrects to `00:00:0.000000000` (the 9-digit format
cannot represent 4e-10 seconds), so correcting back with the inverse
factor returns a zero timecode: the round trip loses the entire
0.4-second value — far beyond formatting precision — and the text
differs as well. -/
theorem adjust_timestamp_roundtrip_counterexample :
    adjust_timestamp_f ⟨1, 1000000000⟩ "00:00:00.400000000" = some "00:00:0.000000000" ∧
    adjust_timestamp_f (pyInvFrac ⟨1, 1000000000⟩) "00:00:0.000000000" = some "00:00:0.000000000" ∧
    "00:00:0.000000000" ≠ "00:00:00.400000000" ∧
    roundTripDeviates ⟨1, 1000000000⟩ "00:00:00.400000000" = true := by
  exact ⟨by decide, by decide, by decide, by decide⟩

/-- C4 (amended): for the script's factor 25/24, correcting and then
correcting again with the inverse factor 24/25 returns a timecode with
exactly the original total-seconds value, for every whole-second timecode
`00:00:00.0` through `00:00:59.0` (textual identity fails in general
because of the seconds-width slip of `adjust_timestamp`). -/
theorem adjust_timestamp_roundtrip_whole_seconds :
    ∀ s : Nat, s < 60 →
      roundTripGivesNat CORRECTION_FACTOR ("00:00:" ++ padZeros 2 (toString s) ++ ".0") s = true := by
  decide

/-- Witness for `adjust_timestamp_roundtrip_whole_seconds` at `s = 50`. -/
theorem adjust_timestamp_roundtrip_whole_seconds_witness :
    roundTripGivesNat CORRECTION_FACTOR ("00:00:" ++ padZeros 2 (toString 50) ++ ".0") 50 = true :=
  adjust_timestamp_roundtrip_whole_seconds 50 (by decide)

/-- C5 counterexample: a file with Windows line endings and zero timecode
matches is NOT passed through byte-identically — text-mode reading
applies universal-newline translation, so the contents
`"ab\r\ncd\r\n"` are written back as `"ab\ncd\n"`. -/
theorem edit_timecodes_crlf_counterexample :
    hasMatchB (String.data "ab\r\ncd\r\n") = false ∧
    edit_timecodes "ab\r\ncd\r\n" = some "ab\ncd\n" ∧
    "ab\ncd\n" ≠ "ab\r\ncd\r\n" := by
  exact ⟨by decide, by decide, by decide⟩

/-- C5 (amended): a source file with zero matches of the script's
timecode pattern and no carriage returns passes through `edit_timecodes`
completely unchanged. -/
theorem edit_timecodes_pass_through (s : String)
    (hcr : ∀ c ∈ s.data, c ≠ '\r') (hm : hasMatchB s.data = false) :
    edit_timecodes s = some s := by
  obtain ⟨l⟩ := s
  show (reSubAux (normNL false l).length (normNL false l)).map String.mk = some (String.mk l)
  rw [normNL_id_of_no_cr l hcr, reSubAux_id_of_no_match l.length l le_rfl hm]
  rfl

/-- Witness for `edit_timecodes_pass_through`. -/
theorem edit_timecodes_pass_through_witness :
    edit_timecodes "CHAPTER01NAME=Intro\n" = some "CHAPTER01NAME=Intro\n" :=
  edit_timecodes_pass_through "CHAPTER01NAME=Intro\n" (by decide) (by decide)

/-- C6: `get_sync_flags` emits, in report order, exactly one
`"--sync", "<id>:0,25/24"` pair per track line that does not contain
"audio" case-insensitively, where `<id>` is that line's leading numeric
track ID; audio track lines and non-track lines contribute nothing
(whatever the inspector's exit status). -/
theorem get_sync_flags_one_directive_per_track (ec : Int) (report : List ReportLine)
    (hw : report.all wellFormedLine = true) :
    get_sync_flags ⟨ec, report.map renderLine⟩ = some (specDirectives report) := by
  show syncFlagsLines (report.map renderLine) = some (specDirectives report)
  revert hw
  induction report with
  | nil => intro _; rfl
  | cons e rest ih =>
    intro hw
    have hsplit : wellFormedLine e = true ∧ rest.all wellFormedLine = true := by
      simpa [List.all_cons, Bool.and_eq_true] using hw
    have ihr := ih hsplit.2
    cases e with
    | other l =>
      have hno : containsCI l "Track ID" = false := by
        simpa [wellFormedLine] using hsplit.1
      simp [List.map_cons, renderLine, syncFlagsLines, hno, specDirectives, ihr]
    | track id ty =>
      have hbool : (!(id.data.isEmpty)) = true ∧ allDigits id.data = true := by
        simpa [wellFormedLine, Bool.and_eq_true] using hsplit.1
      have hne : id.data ≠ [] := by
        intro hnil
        have hb := hbool.1
        rw [hnil] at hb
        simp at hb
      have htid : containsCI (trackLine id ty) "Track ID" = true := rfl
      have hsearch := reSearchId_trackLine id ty hne hbool.2
      cases haud : containsCI (trackLine id ty) "audio" with
      | true =>
        simp [List.map_cons, renderLine, syncFlagsLines, htid, haud, specDirectives, ihr]
      | false =>
        simp [List.map_cons, renderLine, syncFlagsLines, htid, haud, specDirectives, ihr,
          hsearch, stringMk_data]

/-- Witness for `get_sync_flags_one_directive_per_track` on a concrete
report: the video track yields a directive, the audio track none. -/
theorem get_sync_flags_one_directive_per_track_witness :
    get_sync_flags ⟨0, ["File in.mkv: container: Matroska",
        "Track ID 0: video (V_MPEG4/ISO/AVC)", "Track ID 1: audio (A_AAC)"]⟩
      = some ["--sync", "0:0,25/24"] :=
  (get_sync_flags_one_directive_per_track 0
      [ReportLine.other "File in.mkv: container: Matroska",
       ReportLine.track "0" "video (V_MPEG4/ISO/AVC)",
       ReportLine.track "1" "audio (A_AAC)"] (by decide)).trans (by decide)

/-- C7 counterexample: `get_sync_flags` never surfaces a tool-invocation
error — after a failed inspector run (exit status 1, empty stdout) it
silently returns the empty sync list, as if the input had no tracks, and
on an unparseable report (a "Track ID" line with no numeric ID before a
colon) it crashes with an uncaught `AttributeError` (modeled by `none`),
an exception that does not identify the tool. -/
theorem get_sync_flags_error_counterexample :
    get_sync_flags ⟨1, []⟩ = some [] ∧
    get_sync_flags ⟨0, ["Track ID: video"]⟩ = none := by
  exact ⟨rfl, by decide⟩

/-- C7 (amended): the classifier ignores the inspector's exit status
entirely (`subprocess.run` without `check=True`, returncode never read):
its result depends only on the captured stdout; and an unparseable
"Track ID" line raises an uncaught `AttributeError` rather than a
tool-identified invocation error. -/
theorem get_sync_flags_ignores_exit_status :
    (∀ (ec₁ ec₂ : Int) (out : List String),
        get_sync_flags ⟨ec₁, out⟩ = get_sync_flags ⟨ec₂, out⟩) ∧
    get_sync_flags ⟨0, ["Track ID: video"]⟩ = none := by
  exact ⟨fun _ _ _ => rfl, by decide⟩

/-- C8: if the inspector report contains no "Chapters" substring
(case-insensitively), `fix_chapters` performs no extraction and no
rewrite (no external chapter processing at all), returns the empty
string, and the remux command built in `main` contains no
`--chapters` argument. -/
theorem fix_chapters_absent_no_chapter_args
    (stdout tmpdir tmpfile infile : String) (sync : List String)
    (h : containsCI stdout "Chapters" = false)
    (hsync : "--chapters" ∉ sync) (hin : infile ≠ "--chapters")
    (htmp : tmpfile ≠ "--chapters") :
    fix_chapters stdout tmpdir = ([], ChapterArgs.strArgs "") ∧
    "--chapters" ∉ mkvmergeCmd tmpfile sync (fix_chapters stdout tmpdir).2 infile := by
  have hfc : fix_chapters stdout tmpdir = ([], ChapterArgs.strArgs "") := by
    simp [fix_chapters, h]
  refine ⟨hfc, ?_⟩
  rw [hfc]
  have hcmd : mkvmergeCmd tmpfile sync (ChapterArgs.strArgs "") infile
      = ["mkvmerge", "--output", tmpfile] ++ sync ++ ["--no-chapters"] ++ [infile] := by
    simp [mkvmergeCmd, extendArgs]
  rw [hcmd]
  intro hmem
  rcases List.mem_append.mp hmem with h12 | h3
  · rcases List.mem_append.mp h12 with h4 | h5
    · rcases List.mem_append.mp h4 with h6 | h7
      · rcases List.mem_cons.mp h6 with h | h6a
        · exact absurd h (by decide)
        · rcases List.mem_cons.mp h6a with h | h6b
          · exact absurd h (by decide)
          · rcases List.mem_cons.mp h6b with h | h6c
            · exact absurd h (Ne.symm htmp)
            · exact (List.not_mem_nil _) h6c
      · exact hsync h7
    · rcases List.mem_cons.mp h5 with h | h5a
      · exact absurd h (by decide)
      · exact (List.not_mem_nil _) h5a
  · rcases List.mem_cons.mp h3 with h | h3a
    · exact absurd h (Ne.symm hin)
    · exact (List.not_mem_nil _) h3a

/-- Witness for `fix_chapters_absent_no_chapter_args`. -/
theorem fix_chapters_absent_no_chapter_args_witness :
    fix_chapters "Track ID 0: video" "/tmp/work" = ([], ChapterArgs.strArgs "") ∧
    "--chapters" ∉ mkvmergeCmd "/tmp/work/temp.mkv" ["--sync", "0:0,25/24"]
        (fix_chapters "Track ID 0: video" "/tmp/work").2 "in.mkv" :=
  fix_chapters_absent_no_chapter_args "Track ID 0: video" "/tmp/work" "/tmp/work/temp.mkv"
    "in.mkv" ["--sync", "0:0,25/24"] (by decide) (by decide) (by decide) (by decide)

/-- C9: with sample rate `R` found on the first matching line of the
intermediate container's inspector report, `fix_audio` invokes the
transcoder with the audio filter `asetrate=R*24/25` (the rate times
`1 / CORRECTION_FACTOR`), maps every stream (`-map 0`), stream-copies
video and subtitle codecs, and sets the maximum interleave delta to 0. -/
theorem fix_audio_invocation (ec : Int) (lines : List String) (R infile outfile : String)
    (h : sampleRateLines lines = some (some R)) :
    fix_audio ⟨ec, lines⟩ infile outfile =
      some ["ffmpeg", "-y", "-i", infile, "-map", "0", "-filter:a",
            "asetrate=" ++ R ++ "*" ++ "24/25",
            "-c:v", "copy", "-c:s", "copy", "-max_interleave_delta", "0", outfile] := by
  show (sampleRateLines lines).map (fun sr => fix_audio_cmd sr infile outfile) = _
  rw [h]
  rfl

/-- Witness for `fix_audio_invocation`. -/
theorem fix_audio_invocation_witness :
    fix_audio ⟨0, ["|   + Sampling frequency: 48000"]⟩ "tmp.mkv" "out.mkv" =
      some ["ffmpeg", "-y", "-i", "tmp.mkv", "-map", "0", "-filter:a",
            "asetrate=48000*24/25",
            "-c:v", "copy", "-c:s", "copy", "-max_interleave_delta", "0", "out.mkv"] :=
  (fix_audio_invocation 0 ["|   + Sampling frequency: 48000"] "48000" "tmp.mkv" "out.mkv"
    (by decide)).trans (by decide)

/-- C10: when no report line mentions "Sampling frequency",
`get_audio_sample_rate` falls through every line and returns `None`, and
`fix_audio` still builds and invokes the transcoder, interpolating
`None` into the filter: the command contains the literal
`asetrate=None*24/25`. -/
theorem fix_audio_none_sample_rate (ec : Int) (lines : List String) (infile outfile : String)
    (h : lines.all (fun l => !(containsCI l "Sampling frequency")) = true) :
    get_audio_sample_rate ⟨ec, lines⟩ = some none ∧
    fix_audio ⟨ec, lines⟩ infile outfile = some (fix_audio_cmd none infile outfile) ∧
    "asetrate=None*24/25" ∈ fix_audio_cmd none infile outfile := by
  have h1 : get_audio_sample_rate ⟨ec, lines⟩ = some none := sampleRateLines_none lines h
  refine ⟨h1, ?_, ?_⟩
  · show (sampleRateLines lines).map (fun sr => fix_audio_cmd sr infile outfile) = _
    rw [sampleRateLines_none lines h]
    rfl
  · exact List.Mem.tail _ (List.Mem.tail _ (List.Mem.tail _ (List.Mem.tail _ (List.Mem.tail _
      (List.Mem.tail _ (List.Mem.tail _ (List.Mem.head _)))))))

/-- Witness for `fix_audio_none_sample_rate`. -/
theorem fix_audio_none_sample_rate_witness :
    get_audio_sample_rate ⟨0, ["|+ Track type: video"]⟩ = some none ∧
    fix_audio ⟨0, ["|+ Track type: video"]⟩ "tmp.mkv" "out.mkv"
      = some (fix_audio_cmd none "tmp.mkv" "out.mkv") ∧
    "asetrate=None*24/25" ∈ fix_audio_cmd none "tmp.mkv" "out.mkv" :=
  fix_audio_none_sample_rate 0 ["|+ Track type: video"] "tmp.mkv" "out.mkv" (by decide)
